import Mathlib

/-!
Verification of the content versioning and restore engine.

A shallow embedding, in Lean 4, of the versioning subsystem of the
`markdown-site` repository (`convex/files.ts`, versioning half): the
version gate (`isEnabled` / `setEnabled`), snapshot recording
(`createVersion`), history reading (`getVersionHistory` / `getVersion`),
restore (`restoreVersion`), retention sweeping (`cleanupOldVersions`) and
stats (`getStats`).

The backing Convex database is modelled as an explicit state value `DB`:
- `settings` models the `versionControlSettings` table,
- `versions` models the `contentVersions` table, kept as a list in
  insertion order (list position models Convex `_creationTime` order,
  `docId` models the document id `_id`),
- `posts` / `pages` model the external content repository's live items,
  as association lists keyed by the id string used as `contentId`.

Convex semantics modelled:
- `.withIndex("by_key", q.eq(...)).first()` = `List.find?` on the table,
- `.withIndex("by_content", q.eq(..).eq(..)).order("desc").collect()` =
  filter, then reverse (descending `_creationTime` = reverse insertion
  order),
- `.withIndex("by_createdAt", q.lt(..)).take(1000)` = filter by the
  range condition, stable-sort ascending by `createdAt` (index order,
  ties resolved by `_creationTime`, i.e. by list position, which the
  stable `mergeSort` preserves), then `take 1000`,
- `ctx.db.insert` appends a document carrying a fresh `docId`,
- `ctx.db.patch` replaces only the supplied fields of the addressed
  document, leaving every other field unchanged,
- `ctx.db.get` / `ctx.db.delete` address a document by its `docId`.

The live `posts` and `pages` document shapes are not part of the sources
(`convex/schema.ts` is absent); the fields the subsystem reads and
patches are taken from the code of `restoreVersion`, and each live item
additionally carries an opaque `rest` component standing for every other
schema field, so that frame conditions ("every other field unchanged")
are expressible. JS strings are modelled as Lean `String` (a list of
characters); `content.slice(0, 150)` becomes `String.take content 150`
and `.length` becomes `String.length`.

`restoreVersion` is embedded in two layers: `restoreCore` returns the
result together with the ordered list of database writes the handler
issues (its write trace), and `restoreVersion` folds that trace into the
state. This keeps the backup-insert-before-overwrite ordering of the
source observable in the model.
-/

/-- Values of `contentType`: `v.union(v.literal("post"), v.literal("page"))`. -/
inductive ContentType where
  | post
  | page
deriving DecidableEq, Repr

/-- Provenance values of `source`: `"sync" | "dashboard" | "restore"`. -/
inductive Source where
  | sync
  | dashboard
  | restore
deriving DecidableEq, Repr

/-- The caller-supplied fields of a `contentVersions` document, plus the
`createdAt` stamp: everything except the system-assigned `_id`. -/
structure SnapshotData where
  contentType : ContentType
  contentId : String
  slug : String
  title : String
  content : String
  description : Option String
  createdAt : Nat
  source : Source
deriving DecidableEq, Repr

/-- A stored `contentVersions` document: its data plus its document id. -/
structure Snapshot extends SnapshotData where
  docId : Nat
deriving DecidableEq, Repr

/-- A `versionControlSettings` document: `{ key, value }` plus its id.
`value` is a boolean, per the `v.boolean()` validator of `setEnabled`. -/
structure Setting where
  docId : Nat
  key : String
  value : Bool
deriving DecidableEq, Repr

/-- Modelled from the spec: a live `posts` document, of which the
subsystem reads `title`, `content`, `description` and patches `title`,
`content`, `description`, `lastSyncedAt` (spec section 6:
`readContentItem(type, id) -> {title, content, description?}`,
`patchContentItem(type, id, {title, content, description?,
lastSyncedAt})`). The posts schema itself is not in the sources;
`rest` stands opaquely for all of its remaining fields. -/
structure Post where
  title : String
  content : String
  description : Option String
  lastSyncedAt : Option Nat
  rest : List (String × String)
deriving DecidableEq, Repr

/-- Modelled from the spec: a live `pages` document. The pages schema is
not in the sources; per the code of `restoreVersion` (no `description`
is patched for pages, and the backup's description comes from a
`"description" in currentContent` presence test) pages carry no
`description` field. `rest` stands opaquely for its remaining fields. -/
structure Page where
  title : String
  content : String
  lastSyncedAt : Option Nat
  rest : List (String × String)
deriving DecidableEq, Repr

/-- The whole backing state: the two tables owned by the subsystem, the
two external live-content tables, and the allocator for fresh ids. -/
structure DB where
  settings : List Setting
  versions : List Snapshot
  posts : List (String × Post)
  pages : List (String × Page)
  nextId : Nat
deriving DecidableEq, Repr

/-- The `isEnabled` query: first `versionControlSettings` row with
`key = "enabled"`; result is `setting?.value === true`. -/
def isEnabled (db : DB) : Bool :=
  match db.settings.find? (fun s => s.key == "enabled") with
  | some s => s.value
  | none => false

/-- The `setEnabled` mutation: upsert of the `"enabled"` setting — patch the
existing row's `value` when present, insert a fresh row otherwise. -/
def setEnabled (b : Bool) (db : DB) : DB :=
  match db.settings.find? (fun s => s.key == "enabled") with
  | some existing =>
      { db with
        settings := db.settings.map (fun s =>
          if s.docId == existing.docId then { s with value := b } else s) }
  | none =>
      { db with
        settings := db.settings ++ [{ docId := db.nextId, key := "enabled", value := b }],
        nextId := db.nextId + 1 }

/-- Model of `ctx.db.insert("contentVersions", data)`: append the document with a
fresh id and return the id. -/
def insertVersion (db : DB) (d : SnapshotData) : Nat × DB :=
  (db.nextId,
    { db with
      versions := db.versions ++ [{ toSnapshotData := d, docId := db.nextId }],
      nextId := db.nextId + 1 })

/-- The `createVersion` internal mutation: re-reads the gate setting (the
source inlines the same query as `isEnabled`); when the gate is not
exactly `true` it returns `null` and writes nothing, otherwise it
inserts one snapshot with `createdAt = Date.now()` and returns its id. -/
def createVersion (now : Nat) (contentType : ContentType) (contentId slug title content : String)
    (description : Option String) (source : Source) (db : DB) : Option Nat × DB :=
  if isEnabled db then
    let (vid, db') := insertVersion db
      { contentType := contentType, contentId := contentId, slug := slug,
        title := title, content := content, description := description,
        createdAt := now, source := source }
    (some vid, db')
  else
    (none, db)

/-- The preview truncation `content.slice(0, 150) + (content.length > 150 ? "..." : "")`. -/
def contentPreview (content : String) : String :=
  content.take 150 ++ (if content.length > 150 then "..." else "")

/-- One element of `getVersionHistory`'s result. -/
structure VersionSummary where
  docId : Nat
  title : String
  createdAt : Nat
  source : Source
  contentPreview : String
deriving DecidableEq, Repr

/-- The summary projection applied to each snapshot by `getVersionHistory`. -/
def summarize (s : Snapshot) : VersionSummary :=
  { docId := s.docId, title := s.title, createdAt := s.createdAt,
    source := s.source, contentPreview := contentPreview s.content }

/-- The `getVersionHistory` query: all snapshots matching
`(contentType, contentId)` via the `by_content` index, in descending
`_creationTime` order (reverse insertion order), summarized. -/
def getVersionHistory (db : DB) (contentType : ContentType) (contentId : String) :
    List VersionSummary :=
  ((db.versions.filter (fun s =>
      s.contentType == contentType && s.contentId == contentId)).reverse).map summarize

/-- Model of `ctx.db.get(versionId)` on `contentVersions` (also the body of the
`getVersion` query, which returns the document's fields unchanged). -/
def getVersion (db : DB) (versionId : Nat) : Option Snapshot :=
  db.versions.find? (fun s => s.docId == versionId)

/-- The live-item fields `restoreVersion` reads: the branch on
`version.contentType` selecting `ctx.db.get` from `posts` or `pages`,
together with the `"description" in currentContent` presence test used
when building the backup (pages carry no description field, so for a
page the captured description is `undefined`). -/
structure LiveContent where
  title : String
  content : String
  description : Option String
  lastSyncedAt : Option Nat
deriving DecidableEq, Repr

/-- Read the live content item addressed by a snapshot's
`contentType` / `contentId`. -/
def readLive (db : DB) (contentType : ContentType) (contentId : String) :
    Option LiveContent :=
  match contentType with
  | ContentType.post =>
      (db.posts.lookup contentId).map (fun p =>
        { title := p.title, content := p.content,
          description := p.description, lastSyncedAt := p.lastSyncedAt })
  | ContentType.page =>
      (db.pages.lookup contentId).map (fun p =>
        { title := p.title, content := p.content,
          description := none, lastSyncedAt := p.lastSyncedAt })

/-- JS `x || ""` on an optional string: the empty string when the value
is absent or falsy (the empty string), the value itself otherwise. -/
def jsOrEmpty (o : Option String) : String :=
  match o with
  | some s => if s = "" then "" else s
  | none => ""

/-- Result shape `{ success, message }` of `restoreVersion`. -/
structure RestoreResult where
  success : Bool
  message : String
deriving DecidableEq, Repr

/-- A primitive database write issued by `restoreVersion`, in source
order: the backup insert, then the patch of the live item. -/
inductive DbWrite where
  | insertSnapshot (d : SnapshotData)
  | patchPost (contentId : String) (title content description : String) (lastSyncedAt : Nat)
  | patchPage (contentId : String) (title content : String) (lastSyncedAt : Nat)
deriving DecidableEq, Repr

/-- Apply one primitive write to the state. A patch replaces only the
supplied fields of the addressed document (Convex `ctx.db.patch`). -/
def applyWrite (db : DB) : DbWrite → DB
  | DbWrite.insertSnapshot d => (insertVersion db d).2
  | DbWrite.patchPost contentId title content description lastSyncedAt =>
      { db with posts := db.posts.map (fun kv =>
          if kv.1 == contentId then
            (kv.1, { kv.2 with
                     title := title
                     content := content
                     description := some description
                     lastSyncedAt := some lastSyncedAt })
          else kv) }
  | DbWrite.patchPage contentId title content lastSyncedAt =>
      { db with pages := db.pages.map (fun kv =>
          if kv.1 == contentId then
            (kv.1, { kv.2 with
                     title := title
                     content := content
                     lastSyncedAt := some lastSyncedAt })
          else kv) }

/-- The `restoreVersion` handler: result and ordered write trace. All
reads (`ctx.db.get` of the version, `ctx.db.get` of the live item)
happen before both writes in the source, so they are evaluated against
the initial state. The backup is inserted unconditionally — there is no
gate check on this path — and precedes the patch in the trace. -/
def restoreCore (now : Nat) (db : DB) (versionId : Nat) :
    RestoreResult × List DbWrite :=
  match getVersion db versionId with
  | none => ({ success := false, message := "Version not found" }, [])
  | some version =>
    match readLive db version.contentType version.contentId with
    | none => ({ success := false, message := "Original content not found" }, [])
    | some currentContent =>
      let backup : SnapshotData :=
        { contentType := version.contentType, contentId := version.contentId,
          slug := version.slug, title := currentContent.title,
          content := currentContent.content,
          description := currentContent.description,
          createdAt := now, source := Source.restore }
      let patch : DbWrite :=
        match version.contentType with
        | ContentType.post =>
            DbWrite.patchPost version.contentId version.title version.content
              (jsOrEmpty version.description) now
        | ContentType.page =>
            DbWrite.patchPage version.contentId version.title version.content now
      ({ success := true, message := "Version restored successfully" },
        [DbWrite.insertSnapshot backup, patch])

/-- The `restoreVersion` mutation: the result together with the state after
all writes of the trace have been applied in order. -/
def restoreVersion (now : Nat) (db : DB) (versionId : Nat) : RestoreResult × DB :=
  let (result, writes) := restoreCore now db versionId
  (result, writes.foldl applyWrite db)

/-- Retention window: 3 days in milliseconds. -/
def RETENTION_MS : Nat := 3 * 24 * 60 * 60 * 1000

/-- The eligibility test of `cleanupOldVersions`: `createdAt < cutoff`
with `cutoff = now - RETENTION_MS` computed in JS number arithmetic
(modelled over `Int`, so a `now` within 3 days of the epoch behaves as
in the source). -/
def isExpired (now : Nat) (s : Snapshot) : Bool :=
  (s.createdAt : Int) < (now : Int) - (RETENTION_MS : Int)

/-- The `cleanupOldVersions` internal mutation: the snapshots with
`createdAt < now - RETENTION_MS`, read through the ascending
`by_createdAt` index (stable sort by `createdAt` over insertion order),
limited to the first 1000; all of them are deleted by id and their
number is returned. -/
def cleanupOldVersions (now : Nat) (db : DB) : Nat × DB :=
  let oldVersions :=
    ((db.versions.filter (isExpired now)).mergeSort
      (fun a b => a.createdAt ≤ b.createdAt)).take 1000
  let deletedIds := oldVersions.map (fun s => s.docId)
  (oldVersions.length,
    { db with versions := db.versions.filter (fun s => !(deletedIds.contains s.docId)) })

/-- The expired snapshots in the ascending `by_createdAt` index order
(names the first intermediate value of `cleanupOldVersions`). -/
def expiredSorted (now : Nat) (db : DB) : List Snapshot :=
  (db.versions.filter (isExpired now)).mergeSort (fun a b => a.createdAt ≤ b.createdAt)

/-- The batch `cleanupOldVersions` deletes: the first 1000 expired
snapshots in index order. -/
def oldBatch (now : Nat) (db : DB) : List Snapshot :=
  (expiredSorted now db).take 1000

/-- The snapshots surviving one `cleanupOldVersions` call. -/
def keptVersions (now : Nat) (db : DB) : List Snapshot :=
  db.versions.filter (fun s =>
    !(((oldBatch now db).map (fun s => s.docId)).contains s.docId))

/-- Result shape of `getStats`. -/
structure Stats where
  enabled : Bool
  totalVersions : Nat
  oldestVersion : Option Nat
  newestVersion : Option Nat
deriving DecidableEq, Repr

/-- The `getStats` query: gate state, full snapshot count, and
`Math.min(...timestamps)` / `Math.max(...timestamps)` when the
timestamp list is nonempty, `null` otherwise. -/
def getStats (db : DB) : Stats :=
  let timestamps := db.versions.map (fun s => s.createdAt)
  { enabled := isEnabled db,
    totalVersions := db.versions.length,
    oldestVersion :=
      match timestamps with
      | [] => none
      | t :: ts => some (ts.foldl Nat.min t),
    newestVersion :=
      match timestamps with
      | [] => none
      | t :: ts => some (ts.foldl Nat.max t) }

/-- The number of stored snapshots for one content key. -/
def snapshotCount (db : DB) (contentType : ContentType) (contentId : String) : Nat :=
  (db.versions.filter (fun s =>
    s.contentType == contentType && s.contentId == contentId)).length

/-- The backup snapshot data `restoreVersion` records before
overwriting: the live item's current state under the target snapshot's
key and slug, stamped `source = "restore"`. -/
def backupOf (now : Nat) (ver : Snapshot) (live : LiveContent) : SnapshotData :=
  { contentType := ver.contentType, contentId := ver.contentId, slug := ver.slug,
    title := live.title, content := live.content, description := live.description,
    createdAt := now, source := Source.restore }

/-- The live-item patch `restoreVersion` issues, by content type. -/
def restorePatch (now : Nat) (ver : Snapshot) : DbWrite :=
  match ver.contentType with
  | ContentType.post =>
      DbWrite.patchPost ver.contentId ver.title ver.content (jsOrEmpty ver.description) now
  | ContentType.page =>
      DbWrite.patchPage ver.contentId ver.title ver.content now

/-! ## Concrete fixtures (used by the witness theorems) -/

/-- A live post. -/
def postEx : Post :=
  { title := "A", content := "body", description := some "d",
    lastSyncedAt := none, rest := [("extra", "x")] }

/-- A live page. -/
def pageEx : Page :=
  { title := "P", content := "pagebody", lastSyncedAt := none, rest := [("k", "v")] }

/-- A stored snapshot of the post, older state. -/
def verEx : Snapshot :=
  { contentType := ContentType.post, contentId := "p1", slug := "a",
    title := "Aold", content := "oldbody", description := some "dold",
    createdAt := 10, source := Source.dashboard, docId := 0 }

/-- A stored snapshot of the page, older state. -/
def verPageEx : Snapshot :=
  { contentType := ContentType.page, contentId := "g1", slug := "g",
    title := "Pold", content := "oldpage", description := none,
    createdAt := 20, source := Source.sync, docId := 1 }

/-- A store with two snapshots and both live items, gate absent. -/
def dbEx : DB :=
  { settings := [], versions := [verEx, verPageEx],
    posts := [("p1", postEx)], pages := [("g1", pageEx)], nextId := 2 }

/-- The same store with the gate enabled. -/
def dbOnEx : DB :=
  { settings := [{ docId := 2, key := "enabled", value := true }],
    versions := [verEx, verPageEx],
    posts := [("p1", postEx)], pages := [("g1", pageEx)], nextId := 3 }

/-- The live-content view of `postEx`. -/
def liveEx : LiveContent :=
  { title := "A", content := "body", description := some "d", lastSyncedAt := none }

/-- A snapshot with a content body longer than 150 characters. -/
def longEx : Snapshot :=
  { contentType := ContentType.post, contentId := "p1", slug := "a",
    title := "L", content := String.mk (List.replicate 200 (Char.ofNat 97)),
    createdAt := 40, description := none, source := Source.sync, docId := 9 }

/-- A snapshot whose live content item does not exist. -/
def verOrphanEx : Snapshot :=
  { contentType := ContentType.post, contentId := "gone", slug := "z",
    title := "T", content := "C", description := none,
    createdAt := 30, source := Source.sync, docId := 7 }

/-- A store holding only the orphaned snapshot. -/
def dbOrphanEx : DB :=
  { settings := [], versions := [verOrphanEx], posts := [], pages := [], nextId := 8 }

/-! ## Helper lemmas -/

/-- Patching the entry under key `k` of an association list is seen by a
lookup of `k` as mapping the stored value. -/
theorem lookup_map_update {β : Type} (l : List (String × β)) (k : String) (f : β → β) :
    (l.map (fun kv => if kv.1 == k then (kv.1, f kv.2) else kv)).lookup k =
      (l.lookup k).map f := by
  induction l with
  | nil => rfl
  | cons kv t ih =>
    obtain ⟨k1, v1⟩ := kv
    simp only [List.map_cons]
    by_cases h : k1 = k
    · subst h
      rw [if_pos (by simp)]
      simp [List.lookup]
    · rw [if_neg (by simp [h])]
      have h2 : (k == k1) = false := by simp [Ne.symm h]
      simp only [List.lookup, h2]
      exact ih

/-- Patching the entry under key `k` leaves lookups of other keys
unchanged. -/
theorem lookup_map_update_ne {β : Type} (l : List (String × β)) (k k' : String) (f : β → β)
    (h : k' ≠ k) :
    (l.map (fun kv => if kv.1 == k then (kv.1, f kv.2) else kv)).lookup k' =
      l.lookup k' := by
  induction l with
  | nil => rfl
  | cons kv t ih =>
    obtain ⟨k1, v1⟩ := kv
    simp only [List.map_cons]
    by_cases hk : k1 = k
    · subst hk
      rw [if_pos (by simp)]
      have h2 : (k' == k1) = false := by simp [h]
      simp only [List.lookup, h2]
      exact ih
    · rw [if_neg (by simp [hk])]
      by_cases hk' : k' = k1
      · subst hk'
        simp [List.lookup]
      · have h2 : (k' == k1) = false := by simp [hk']
        simp only [List.lookup, h2]
        exact ih

/-- Specialization of `lookup_map_update` to the post patch of `applyWrite`. -/
theorem lookup_patchPost_eq (l : List (String × Post)) (k : String) (t c d : String) (ts : Nat) :
    (l.map (fun kv => if kv.1 == k then
        (kv.1, { kv.2 with
                 title := t
                 content := c
                 description := some d
                 lastSyncedAt := some ts }) else kv)).lookup k =
      (l.lookup k).map (fun p =>
        { p with
          title := t
          content := c
          description := some d
          lastSyncedAt := some ts }) :=
  lookup_map_update l k (fun p =>
    { p with
      title := t
      content := c
      description := some d
      lastSyncedAt := some ts })

/-- Specialization of `lookup_map_update` to the page patch of `applyWrite`. -/
theorem lookup_patchPage_eq (l : List (String × Page)) (k : String) (t c : String) (ts : Nat) :
    (l.map (fun kv => if kv.1 == k then
        (kv.1, { kv.2 with
                 title := t
                 content := c
                 lastSyncedAt := some ts }) else kv)).lookup k =
      (l.lookup k).map (fun p =>
        { p with
          title := t
          content := c
          lastSyncedAt := some ts }) :=
  lookup_map_update l k (fun p =>
    { p with
      title := t
      content := c
      lastSyncedAt := some ts })

/-- Specialization of `lookup_map_update_ne` to the post patch. -/
theorem lookup_patchPost_ne (l : List (String × Post)) (k k' : String) (t c d : String)
    (ts : Nat) (h : k' ≠ k) :
    (l.map (fun kv => if kv.1 == k then
        (kv.1, { kv.2 with
                 title := t
                 content := c
                 description := some d
                 lastSyncedAt := some ts }) else kv)).lookup k' =
      l.lookup k' :=
  lookup_map_update_ne l k k' (fun p =>
    { p with
      title := t
      content := c
      description := some d
      lastSyncedAt := some ts }) h

/-- Specialization of `lookup_map_update_ne` to the page patch. -/
theorem lookup_patchPage_ne (l : List (String × Page)) (k k' : String) (t c : String)
    (ts : Nat) (h : k' ≠ k) :
    (l.map (fun kv => if kv.1 == k then
        (kv.1, { kv.2 with
                 title := t
                 content := c
                 lastSyncedAt := some ts }) else kv)).lookup k' =
      l.lookup k' :=
  lookup_map_update_ne l k k' (fun p =>
    { p with
      title := t
      content := c
      lastSyncedAt := some ts }) h

/-- On the success path, `restoreVersion` issues exactly the backup
insert followed by the live-item patch, and reports success. -/
theorem restoreCore_ok (now : Nat) (db : DB) (vid : Nat) (ver : Snapshot) (live : LiveContent)
    (hv : getVersion db vid = some ver)
    (hl : readLive db ver.contentType ver.contentId = some live) :
    restoreCore now db vid =
      ({ success := true, message := "Version restored successfully" },
       [DbWrite.insertSnapshot (backupOf now ver live), restorePatch now ver]) := by
  simp [restoreCore, hv, hl, backupOf, restorePatch]

/-- The state after a successful restore: first the backup insert, then
the patch, applied in that order. -/
theorem restoreVersion_ok_state (now : Nat) (db : DB) (vid : Nat) (ver : Snapshot)
    (live : LiveContent)
    (hv : getVersion db vid = some ver)
    (hl : readLive db ver.contentType ver.contentId = some live) :
    (restoreVersion now db vid).2 =
      applyWrite (applyWrite db (DbWrite.insertSnapshot (backupOf now ver live)))
        (restorePatch now ver) := by
  simp [restoreVersion, restoreCore_ok now db vid ver live hv hl]

/-- A successful restore reports the success message. -/
theorem restoreVersion_ok_result (now : Nat) (db : DB) (vid : Nat) (ver : Snapshot)
    (live : LiveContent)
    (hv : getVersion db vid = some ver)
    (hl : readLive db ver.contentType ver.contentId = some live) :
    (restoreVersion now db vid).1 =
      { success := true, message := "Version restored successfully" } := by
  simp [restoreVersion, restoreCore_ok now db vid ver live hv hl]

/-- The live-item patch leaves the `contentVersions` table alone. -/
theorem versions_applyWrite_restorePatch (db : DB) (now : Nat) (ver : Snapshot) :
    (applyWrite db (restorePatch now ver)).versions = db.versions := by
  cases hct : ver.contentType <;> simp [restorePatch, hct, applyWrite]

/-- A successful restore appends exactly one snapshot — the backup — to
the `contentVersions` table. -/
theorem restoreVersion_ok_versions (now : Nat) (db : DB) (vid : Nat) (ver : Snapshot)
    (live : LiveContent)
    (hv : getVersion db vid = some ver)
    (hl : readLive db ver.contentType ver.contentId = some live) :
    (restoreVersion now db vid).2.versions =
      db.versions ++ [{ toSnapshotData := backupOf now ver live, docId := db.nextId }] := by
  rw [restoreVersion_ok_state now db vid ver live hv hl, versions_applyWrite_restorePatch]
  simp [applyWrite, insertVersion]

/-- The target snapshot still resolves after a successful restore. -/
theorem getVersion_after_ok (now : Nat) (db : DB) (vid : Nat) (ver : Snapshot)
    (live : LiveContent)
    (hv : getVersion db vid = some ver)
    (hl : readLive db ver.contentType ver.contentId = some live) :
    getVersion (restoreVersion now db vid).2 vid = some ver := by
  rw [getVersion, restoreVersion_ok_versions now db vid ver live hv hl,
    List.find?_append]
  rw [getVersion] at hv
  simp [hv]

/-- After a successful restore of a post snapshot, the live post holds
the target's title and content, the target's description with the empty
string substituted for an absent or empty one, a fresh `lastSyncedAt`,
and every other field unchanged. -/
theorem restore_ok_post (now : Nat) (db : DB) (vid : Nat) (ver : Snapshot) (p : Post)
    (hv : getVersion db vid = some ver)
    (hct : ver.contentType = ContentType.post)
    (hp : db.posts.lookup ver.contentId = some p) :
    (restoreVersion now db vid).2.posts.lookup ver.contentId =
      some { p with
             title := ver.title
             content := ver.content
             description := some (jsOrEmpty ver.description)
             lastSyncedAt := some now } := by
  have hl : readLive db ver.contentType ver.contentId =
      some { title := p.title, content := p.content,
             description := p.description, lastSyncedAt := p.lastSyncedAt } := by
    rw [hct]
    simp [readLive, hp]
  rw [restoreVersion_ok_state now db vid ver _ hv hl]
  simp only [restorePatch, hct, applyWrite, insertVersion]
  rw [lookup_patchPost_eq, hp]
  rfl

/-- After a successful restore of a page snapshot, the live page holds
the target's title and content and a fresh `lastSyncedAt`; no
description is written (pages carry none) and every other field is
unchanged. -/
theorem restore_ok_page (now : Nat) (db : DB) (vid : Nat) (ver : Snapshot) (p : Page)
    (hv : getVersion db vid = some ver)
    (hct : ver.contentType = ContentType.page)
    (hp : db.pages.lookup ver.contentId = some p) :
    (restoreVersion now db vid).2.pages.lookup ver.contentId =
      some { p with
             title := ver.title
             content := ver.content
             lastSyncedAt := some now } := by
  have hl : readLive db ver.contentType ver.contentId =
      some { title := p.title, content := p.content,
             description := none, lastSyncedAt := p.lastSyncedAt } := by
    rw [hct]
    simp [readLive, hp]
  rw [restoreVersion_ok_state now db vid ver _ hv hl]
  simp only [restorePatch, hct, applyWrite, insertVersion]
  rw [lookup_patchPage_eq, hp]
  rfl

/-- Inserting a snapshot does not touch the live content items. -/
theorem readLive_insertSnapshot (db : DB) (d : SnapshotData) (ct : ContentType) (cid : String) :
    readLive (applyWrite db (DbWrite.insertSnapshot d)) ct cid = readLive db ct cid := by
  cases ct <;> rfl

/-- After a successful restore the live item carries the target
snapshot's title and content and a fresh `lastSyncedAt`. -/
theorem readLive_after_ok (now : Nat) (db : DB) (vid : Nat) (ver : Snapshot)
    (live : LiveContent)
    (hv : getVersion db vid = some ver)
    (hl : readLive db ver.contentType ver.contentId = some live) :
    ∃ l', readLive (restoreVersion now db vid).2 ver.contentType ver.contentId = some l' ∧
      l'.title = ver.title ∧ l'.content = ver.content ∧ l'.lastSyncedAt = some now := by
  cases hct : ver.contentType with
  | post =>
    rw [hct] at hl
    rw [readLive] at hl
    obtain ⟨p, hp, hlive⟩ := Option.map_eq_some'.mp hl
    refine ⟨{ title := ver.title
              content := ver.content
              description := some (jsOrEmpty ver.description)
              lastSyncedAt := some now }, ?_, rfl, rfl, rfl⟩
    simp only [readLive]
    rw [restore_ok_post now db vid ver p hv hct hp]
    rfl
  | page =>
    rw [hct] at hl
    rw [readLive] at hl
    obtain ⟨p, hp, hlive⟩ := Option.map_eq_some'.mp hl
    refine ⟨{ title := ver.title
              content := ver.content
              description := none
              lastSyncedAt := some now }, ?_, rfl, rfl, rfl⟩
    simp only [readLive]
    rw [restore_ok_page now db vid ver p hv hct hp]
    rfl

/-! ## Claim theorems -/

/-- C1: for a resolvable snapshot id whose live content item exists,
`restoreVersion` appends exactly one backup snapshot with
`source = "restore"` capturing the live item's pre-call title, content
and description under the target's slug / contentType / contentId and
`createdAt = now`; the backup insert is the first write of the trace and
the live item is still unchanged after it alone; afterwards the live
item carries the target's title and content and a fresh `lastSyncedAt`,
and the call reports `{success: true, message: "Version restored
successfully"}`. No hypothesis is made about the gate setting, so all of
this holds whether or not versioning is enabled. -/
theorem restore_success_claim (now : Nat) (db : DB) (vid : Nat) (ver : Snapshot)
    (live : LiveContent)
    (hv : getVersion db vid = some ver)
    (hl : readLive db ver.contentType ver.contentId = some live) :
    (restoreVersion now db vid).1 =
      { success := true, message := "Version restored successfully" } ∧
    (restoreVersion now db vid).2.versions =
      db.versions ++ [{ toSnapshotData := backupOf now ver live, docId := db.nextId }] ∧
    (backupOf now ver live).source = Source.restore ∧
    (backupOf now ver live).title = live.title ∧
    (backupOf now ver live).content = live.content ∧
    (backupOf now ver live).description = live.description ∧
    (backupOf now ver live).slug = ver.slug ∧
    (backupOf now ver live).contentType = ver.contentType ∧
    (backupOf now ver live).contentId = ver.contentId ∧
    (backupOf now ver live).createdAt = now ∧
    (restoreCore now db vid).2 =
      [DbWrite.insertSnapshot (backupOf now ver live), restorePatch now ver] ∧
    readLive (applyWrite db (DbWrite.insertSnapshot (backupOf now ver live)))
      ver.contentType ver.contentId = some live ∧
    (∃ l', readLive (restoreVersion now db vid).2 ver.contentType ver.contentId = some l' ∧
      l'.title = ver.title ∧ l'.content = ver.content ∧ l'.lastSyncedAt = some now) := by
  refine ⟨restoreVersion_ok_result now db vid ver live hv hl,
    restoreVersion_ok_versions now db vid ver live hv hl,
    rfl, rfl, rfl, rfl, rfl, rfl, rfl, rfl, ?_, ?_,
    readLive_after_ok now db vid ver live hv hl⟩
  · rw [restoreCore_ok now db vid ver live hv hl]
  · rw [readLive_insertSnapshot]
    exact hl

/-- C1 witness: the claim theorem applied to the concrete store `dbEx`,
its post snapshot `verEx` (id 0) and the live post state `liveEx`. -/
theorem restore_success_claim_witness :
    getVersion dbEx 0 = some verEx ∧
    readLive dbEx verEx.contentType verEx.contentId = some liveEx ∧
    (restoreVersion 100 dbEx 0).1 =
      { success := true, message := "Version restored successfully" } ∧
    (restoreVersion 100 dbEx 0).2.versions =
      dbEx.versions ++ [{ toSnapshotData := backupOf 100 verEx liveEx, docId := dbEx.nextId }] := by
  have h := restore_success_claim 100 dbEx 0 verEx liveEx rfl rfl
  exact ⟨rfl, rfl, h.1, h.2.1⟩

/-- C2: an unresolvable snapshot id makes `restoreVersion` return
`{success: false, message: "Version not found"}`, and a resolvable
snapshot whose live content item is gone makes it return
`{success: false, message: "Original content not found"}`; in both
cases the write trace is empty and the returned state is the input
state, so no snapshot is inserted and no live item is modified. -/
theorem restore_failure_claim (now : Nat) (db : DB) (vid : Nat) :
    (getVersion db vid = none →
      restoreVersion now db vid =
        ({ success := false, message := "Version not found" }, db) ∧
      (restoreCore now db vid).2 = []) ∧
    (∀ ver, getVersion db vid = some ver →
      readLive db ver.contentType ver.contentId = none →
      restoreVersion now db vid =
        ({ success := false, message := "Original content not found" }, db) ∧
      (restoreCore now db vid).2 = []) := by
  constructor
  · intro h
    constructor
    · simp [restoreVersion, restoreCore, h]
    · simp [restoreCore, h]
  · intro ver hv hl
    constructor
    · simp [restoreVersion, restoreCore, hv, hl]
    · simp [restoreCore, hv, hl]

/-- C2 witness: id 99 resolves to no snapshot of `dbEx`, and snapshot 7
of `dbOrphanEx` points at a deleted post; both failure branches of the
claim theorem evaluated there. -/
theorem restore_failure_claim_witness :
    getVersion dbEx 99 = none ∧
    restoreVersion 100 dbEx 99 =
      ({ success := false, message := "Version not found" }, dbEx) ∧
    getVersion dbOrphanEx 7 = some verOrphanEx ∧
    readLive dbOrphanEx verOrphanEx.contentType verOrphanEx.contentId = none ∧
    restoreVersion 100 dbOrphanEx 7 =
      ({ success := false, message := "Original content not found" }, dbOrphanEx) := by
  refine ⟨rfl, ?_, rfl, rfl, ?_⟩
  · exact ((restore_failure_claim 100 dbEx 99).1 rfl).1
  · exact ((restore_failure_claim 100 dbOrphanEx 7).2 verOrphanEx rfl rfl).1

/-- C9: restoring the same valid snapshot twice succeeds both times,
grows the history log by exactly two (one backup per call), and leaves
the live item's title and content equal to the target snapshot's after
each of the two calls. -/
theorem restore_twice_claim (now1 now2 : Nat) (db : DB) (vid : Nat) (ver : Snapshot)
    (live : LiveContent)
    (hv : getVersion db vid = some ver)
    (hl : readLive db ver.contentType ver.contentId = some live) :
    (restoreVersion now1 db vid).1.success = true ∧
    (restoreVersion now2 (restoreVersion now1 db vid).2 vid).1.success = true ∧
    (restoreVersion now2 (restoreVersion now1 db vid).2 vid).2.versions.length =
      db.versions.length + 2 ∧
    (∃ l1, readLive (restoreVersion now1 db vid).2 ver.contentType ver.contentId = some l1 ∧
      l1.title = ver.title ∧ l1.content = ver.content) ∧
    (∃ l2, readLive (restoreVersion now2 (restoreVersion now1 db vid).2 vid).2
        ver.contentType ver.contentId = some l2 ∧
      l2.title = ver.title ∧ l2.content = ver.content) := by
  obtain ⟨l1, hl1, hl1t, hl1c, hl1s⟩ := readLive_after_ok now1 db vid ver live hv hl
  have hv1 : getVersion (restoreVersion now1 db vid).2 vid = some ver :=
    getVersion_after_ok now1 db vid ver live hv hl
  obtain ⟨l2, hl2, hl2t, hl2c, hl2s⟩ :=
    readLive_after_ok now2 (restoreVersion now1 db vid).2 vid ver l1 hv1 hl1
  refine ⟨?_, ?_, ?_, ⟨l1, hl1, hl1t, hl1c⟩, ⟨l2, hl2, hl2t, hl2c⟩⟩
  · rw [restoreVersion_ok_result now1 db vid ver live hv hl]
  · rw [restoreVersion_ok_result now2 (restoreVersion now1 db vid).2 vid ver l1 hv1 hl1]
  · rw [restoreVersion_ok_versions now2 (restoreVersion now1 db vid).2 vid ver l1 hv1 hl1,
      restoreVersion_ok_versions now1 db vid ver live hv hl]
    simp

/-- C9 witness: the double-restore claim evaluated on `dbEx` at the post
snapshot id 0. -/
theorem restore_twice_claim_witness :
    getVersion dbEx 0 = some verEx ∧
    (restoreVersion 200 (restoreVersion 100 dbEx 0).2 0).2.versions.length =
      dbEx.versions.length + 2 := by
  have h := restore_twice_claim 100 200 dbEx 0 verEx liveEx rfl rfl
  exact ⟨rfl, h.2.2.1⟩

/-- C10: the fields a successful restore writes depend on the content
type. For a post, the live item becomes the target's title and content,
a description that is always written — the target's description with the
empty string substituted when it is absent or empty — and a fresh
`lastSyncedAt`, with every other field (`rest`) untouched; other posts
and all pages are untouched. For a page, only title, content and
`lastSyncedAt` are written — a page has no description field at all —
again with every other field untouched, and posts are untouched. -/
theorem restore_fields_claim (now : Nat) (db : DB) (vid : Nat) (ver : Snapshot)
    (hv : getVersion db vid = some ver) :
    (∀ p, ver.contentType = ContentType.post →
      db.posts.lookup ver.contentId = some p →
      (restoreVersion now db vid).2.posts.lookup ver.contentId =
        some { p with
               title := ver.title
               content := ver.content
               description := some (jsOrEmpty ver.description)
               lastSyncedAt := some now } ∧
      (∀ k, k ≠ ver.contentId →
        (restoreVersion now db vid).2.posts.lookup k = db.posts.lookup k) ∧
      (restoreVersion now db vid).2.pages = db.pages) ∧
    (∀ p, ver.contentType = ContentType.page →
      db.pages.lookup ver.contentId = some p →
      (restoreVersion now db vid).2.pages.lookup ver.contentId =
        some { p with
               title := ver.title
               content := ver.content
               lastSyncedAt := some now } ∧
      (∀ k, k ≠ ver.contentId →
        (restoreVersion now db vid).2.pages.lookup k = db.pages.lookup k) ∧
      (restoreVersion now db vid).2.posts = db.posts) ∧
    ((ver.description = none ∨ ver.description = some "") →
      jsOrEmpty ver.description = "") ∧
    (∀ s, ver.description = some s → s ≠ "" → jsOrEmpty ver.description = s) := by
  refine ⟨?_, ?_, ?_, ?_⟩
  · intro p hct hp
    have hl : readLive db ver.contentType ver.contentId =
        some { title := p.title, content := p.content,
               description := p.description, lastSyncedAt := p.lastSyncedAt } := by
      rw [hct]
      simp [readLive, hp]
    refine ⟨restore_ok_post now db vid ver p hv hct hp, ?_, ?_⟩
    · intro k hk
      rw [restoreVersion_ok_state now db vid ver _ hv hl]
      simp only [restorePatch, hct, applyWrite, insertVersion]
      exact lookup_patchPost_ne db.posts ver.contentId k ver.title ver.content
        (jsOrEmpty ver.description) now hk
    · rw [restoreVersion_ok_state now db vid ver _ hv hl]
      simp only [restorePatch, hct, applyWrite, insertVersion]
  · intro p hct hp
    have hl : readLive db ver.contentType ver.contentId =
        some { title := p.title, content := p.content,
               description := none, lastSyncedAt := p.lastSyncedAt } := by
      rw [hct]
      simp [readLive, hp]
    refine ⟨restore_ok_page now db vid ver p hv hct hp, ?_, ?_⟩
    · intro k hk
      rw [restoreVersion_ok_state now db vid ver _ hv hl]
      simp only [restorePatch, hct, applyWrite, insertVersion]
      exact lookup_patchPage_ne db.pages ver.contentId k ver.title ver.content now hk
    · rw [restoreVersion_ok_state now db vid ver _ hv hl]
      simp only [restorePatch, hct, applyWrite, insertVersion]
  · rintro (h | h) <;> simp [jsOrEmpty, h]
  · intro s hs hne
    simp [jsOrEmpty, hs, hne]

/-- C10 witness: the field effects evaluated on `dbEx` for the post
snapshot (id 0) and the page snapshot (id 1). -/
theorem restore_fields_claim_witness :
    getVersion dbEx 0 = some verEx ∧
    dbEx.posts.lookup verEx.contentId = some postEx ∧
    (restoreVersion 100 dbEx 0).2.posts.lookup verEx.contentId =
      some { postEx with
             title := verEx.title
             content := verEx.content
             description := some (jsOrEmpty verEx.description)
             lastSyncedAt := some 100 } ∧
    getVersion dbEx 1 = some verPageEx ∧
    (restoreVersion 100 dbEx 1).2.pages.lookup verPageEx.contentId =
      some { pageEx with
             title := verPageEx.title
             content := verPageEx.content
             lastSyncedAt := some 100 } ∧
    (restoreVersion 100 dbEx 1).2.posts = dbEx.posts := by
  have h0 := (restore_fields_claim 100 dbEx 0 verEx rfl).1 postEx rfl rfl
  have h1 := (restore_fields_claim 100 dbEx 1 verPageEx rfl).2.1 pageEx rfl rfl
  exact ⟨rfl, rfl, h0.1, rfl, h1.1, h1.2.2⟩

/-- C3: while the gate is disabled `createVersion` returns `none` and
leaves the state — in particular every content key's snapshot count —
unchanged; while the gate is enabled it returns the id of exactly one
freshly appended snapshot carrying the given fields and
`createdAt = now`, and the snapshot count of that content key grows by
exactly one. -/
theorem createVersion_gate_claim (now : Nat) (ct : ContentType)
    (cid slug title content : String) (descr : Option String) (src : Source) (db : DB) :
    (isEnabled db = false →
      createVersion now ct cid slug title content descr src db = (none, db)) ∧
    (isEnabled db = true →
      (createVersion now ct cid slug title content descr src db).1 = some db.nextId ∧
      (createVersion now ct cid slug title content descr src db).2.versions =
        db.versions ++
          [{ contentType := ct, contentId := cid, slug := slug, title := title,
             content := content, description := descr, createdAt := now,
             source := src, docId := db.nextId }] ∧
      snapshotCount (createVersion now ct cid slug title content descr src db).2 ct cid =
        snapshotCount db ct cid + 1) := by
  constructor
  · intro h
    simp [createVersion, h]
  · intro h
    refine ⟨by simp [createVersion, h, insertVersion], ?_, ?_⟩
    · simp [createVersion, h, insertVersion]
    · simp [snapshotCount, createVersion, h, insertVersion, List.filter_append]

/-- C3 witness: both gate branches of the claim theorem evaluated
concretely — on `dbEx` (gate record absent) and `dbOnEx` (gate on). -/
theorem createVersion_gate_claim_witness :
    isEnabled dbEx = false ∧
    createVersion 50 ContentType.post "p1" "a" "t" "c" none Source.sync dbEx = (none, dbEx) ∧
    isEnabled dbOnEx = true ∧
    (createVersion 50 ContentType.post "p1" "a" "t" "c" none Source.sync dbOnEx).1 =
      some dbOnEx.nextId ∧
    snapshotCount
        (createVersion 50 ContentType.post "p1" "a" "t" "c" none Source.sync dbOnEx).2
        ContentType.post "p1" =
      snapshotCount dbOnEx ContentType.post "p1" + 1 := by
  have hoff :=
    (createVersion_gate_claim 50 ContentType.post "p1" "a" "t" "c" none Source.sync dbEx).1 rfl
  have hon :=
    (createVersion_gate_claim 50 ContentType.post "p1" "a" "t" "c" none Source.sync dbOnEx).2 rfl
  exact ⟨rfl, hoff, rfl, hon.1, hon.2.2⟩

/-- C5: a summary's `contentPreview` is the content itself when the
content has at most 150 characters, and the first 150 characters of the
content followed by the ellipsis marker `"..."` otherwise. -/
theorem contentPreview_claim (s : Snapshot) :
    (s.content.length ≤ 150 → (summarize s).contentPreview = s.content) ∧
    (150 < s.content.length →
      (summarize s).contentPreview = String.mk (s.content.data.take 150) ++ "...") := by
  constructor
  · intro h
    have hnot : ¬(150 < s.content.length) := by omega
    show contentPreview s.content = s.content
    rw [contentPreview, if_neg hnot, String.append_empty, String.take_eq]
    have hd : s.content.data.length ≤ 150 := h
    rw [List.take_of_length_le hd]
  · intro h
    show contentPreview s.content = String.mk (s.content.data.take 150) ++ "..."
    rw [contentPreview, if_pos h, String.take_eq]

set_option maxRecDepth 4000 in
/-- C5 witness: the short branch on `verEx` (7-character content) and
the long branch on `longEx` (200-character content). -/
theorem contentPreview_claim_witness :
    verEx.content.length ≤ 150 ∧
    (summarize verEx).contentPreview = verEx.content ∧
    150 < longEx.content.length ∧
    (summarize longEx).contentPreview = String.mk (longEx.content.data.take 150) ++ "..." := by
  refine ⟨by decide, (contentPreview_claim verEx).1 (by decide), by decide,
    (contentPreview_claim longEx).2 (by decide)⟩

/-- The patch `setEnabled` applies preserves every setting's key, so the
`"enabled"` search commutes with it. -/
theorem find?_enabled_map_patch (l : List Setting) (d : Nat) (b : Bool) :
    (l.map (fun s => if s.docId == d then { s with value := b } else s)).find?
        (fun s => s.key == "enabled") =
      (l.find? (fun s => s.key == "enabled")).map
        (fun s => if s.docId == d then { s with value := b } else s) := by
  rw [List.find?_map]
  have hcomp : ((fun s : Setting => s.key == "enabled") ∘
      (fun s => if s.docId == d then { s with value := b } else s)) =
      fun s : Setting => s.key == "enabled" := by
    funext s
    by_cases h : (s.docId == d) = true <;> simp [Function.comp, h]
  rw [hcomp]

/-- After `setEnabled b`, the `"enabled"` search finds a record whose
value is `b`. -/
theorem setEnabled_find? (b : Bool) (db : DB) :
    ∃ ex, (setEnabled b db).settings.find? (fun s => s.key == "enabled") = some ex ∧
      ex.key = "enabled" ∧ ex.value = b := by
  rw [setEnabled]
  cases h : db.settings.find? (fun s => s.key == "enabled") with
  | some ex =>
    refine ⟨{ ex with value := b }, ?_, ?_, rfl⟩
    · simp only [find?_enabled_map_patch, h, Option.map_some]
      simp
    · have := List.find?_some h
      simpa using this
  | none =>
    refine ⟨{ docId := db.nextId, key := "enabled", value := b }, ?_, rfl, rfl⟩
    simp only [List.find?_append, h]
    simp [List.find?]

/-- The value patch of `setEnabled` never changes a setting's key. -/
theorem key_of_patch (d : Nat) (b : Bool) (s : Setting) :
    (if s.docId == d then { s with value := b } else s).key = s.key := by
  by_cases h : (s.docId == d) = true <;> simp [h]

/-- Behavior of `setEnabled` when an `"enabled"` record exists: patch it in place. -/
theorem setEnabled_eq_of_find (b : Bool) (db : DB) (ex : Setting)
    (h : db.settings.find? (fun s => s.key == "enabled") = some ex) :
    setEnabled b db =
      { db with settings := db.settings.map (fun s =>
          if s.docId == ex.docId then { s with value := b } else s) } := by
  rw [setEnabled, h]

/-- Behavior of `setEnabled` when no `"enabled"` record exists: append a fresh one. -/
theorem setEnabled_eq_of_none (b : Bool) (db : DB)
    (h : db.settings.find? (fun s => s.key == "enabled") = none) :
    setEnabled b db =
      { db with
        settings := db.settings ++ [{ docId := db.nextId, key := "enabled", value := b }],
        nextId := db.nextId + 1 } := by
  rw [setEnabled, h]

/-- C8: the version gate behaves as a keyed boolean upsert. Reading
right after writing returns the written value; reading is `true` exactly
when an `"enabled"` record with value `true` is stored (absent or
`false` read as `false`) — under the invariant that keys are unique;
writing the same value twice is idempotent on the whole state — under
the allocator invariant that stored ids are below `nextId`; and the
upsert preserves key uniqueness, so at most one record per key ever
exists. `isEnabled` is a pure function of the state by construction. -/
theorem versionGate_claim (b : Bool) (db : DB) :
    isEnabled (setEnabled b db) = b ∧
    (db.settings.Pairwise (fun s t => s.key ≠ t.key) →
      (isEnabled db = true ↔ ∃ s ∈ db.settings, s.key = "enabled" ∧ s.value = true)) ∧
    ((∀ s ∈ db.settings, s.docId < db.nextId) →
      setEnabled b (setEnabled b db) = setEnabled b db) ∧
    (db.settings.Pairwise (fun s t => s.key ≠ t.key) →
      (setEnabled b db).settings.Pairwise (fun s t => s.key ≠ t.key)) := by
  refine ⟨?_, ?_, ?_, ?_⟩
  · obtain ⟨ex, hfind, _, hval⟩ := setEnabled_find? b db
    simp only [isEnabled, hfind]
    exact hval
  · intro hpw
    have hnd : (db.settings.map (fun s => s.key)).Nodup := List.pairwise_map.mpr hpw
    have hinj := List.inj_on_of_nodup_map hnd
    constructor
    · intro h
      cases hfind : db.settings.find? (fun s => s.key == "enabled") with
      | none => simp [isEnabled, hfind] at h
      | some t =>
        refine ⟨t, List.mem_of_find?_eq_some hfind, ?_, ?_⟩
        · simpa using List.find?_some hfind
        · simpa [isEnabled, hfind] using h
    · rintro ⟨s, hs, hkey, hval⟩
      cases hfind : db.settings.find? (fun x => x.key == "enabled") with
      | none =>
        exact absurd (by simp [hkey]) (List.find?_eq_none.mp hfind s hs)
      | some t =>
        have ht : t ∈ db.settings := List.mem_of_find?_eq_some hfind
        have htkey : t.key = "enabled" := by simpa using List.find?_some hfind
        have : s = t := hinj hs ht (by rw [hkey, htkey])
        simp [isEnabled, hfind, ← this, hval]
  · intro hfresh
    cases h : db.settings.find? (fun s => s.key == "enabled") with
    | some ex =>
      have e1 := setEnabled_eq_of_find b db ex h
      have hfind2 : (setEnabled b db).settings.find? (fun s => s.key == "enabled") =
          some { ex with value := b } := by
        rw [e1]
        dsimp only
        rw [find?_enabled_map_patch, h]
        simp
      rw [setEnabled_eq_of_find b (setEnabled b db) { ex with value := b } hfind2, e1]
      dsimp only
      congr 1
      rw [List.map_map]
      have hpt : ∀ s ∈ db.settings,
          ((fun s => if s.docId == ({ ex with value := b } : Setting).docId then
              { s with value := b } else s) ∘
            (fun s => if s.docId == ex.docId then { s with value := b } else s)) s =
          (fun s => if s.docId == ex.docId then { s with value := b } else s) s := by
        intro s _
        by_cases hd : (s.docId == ex.docId) = true <;> simp [Function.comp, hd]
      exact List.map_congr_left hpt
    | none =>
      have e1 := setEnabled_eq_of_none b db h
      have hfind2 : (setEnabled b db).settings.find? (fun s => s.key == "enabled") =
          some { docId := db.nextId, key := "enabled", value := b } := by
        rw [e1]
        dsimp only
        rw [List.find?_append, h]
        simp [List.find?]
      rw [setEnabled_eq_of_find b (setEnabled b db)
        { docId := db.nextId, key := "enabled", value := b } hfind2, e1]
      dsimp only
      congr 1
      have hpt : ∀ s ∈ db.settings ++
          [({ docId := db.nextId, key := "enabled", value := b } : Setting)],
          (if s.docId == ({ docId := db.nextId, key := "enabled", value := b } : Setting).docId
            then { s with value := b } else s) = s := by
        intro s hs
        rcases List.mem_append.mp hs with hmem | hmem
        · have : s.docId ≠ db.nextId := Nat.ne_of_lt (hfresh s hmem)
          simp [this]
        · have : s = { docId := db.nextId, key := "enabled", value := b } := by simpa using hmem
          subst this
          simp
      have := List.map_congr_left hpt
      rw [this]
      simp
  · intro hpw
    cases h : db.settings.find? (fun s => s.key == "enabled") with
    | some ex =>
      rw [setEnabled_eq_of_find b db ex h]
      dsimp only
      refine List.Pairwise.map _ ?_ hpw
      intro a c hac
      rw [key_of_patch, key_of_patch]
      exact hac
    | none =>
      rw [setEnabled_eq_of_none b db h]
      dsimp only
      rw [List.pairwise_append]
      refine ⟨hpw, by simp, ?_⟩
      intro a ha c hc
      have hc' : c = { docId := db.nextId, key := "enabled", value := b } := by simpa using hc
      subst hc'
      have := List.find?_eq_none.mp h a ha
      simpa using this

/-- C8 witness: the gate claims evaluated on `dbEx` (no settings, so the
key-uniqueness and allocator hypotheses hold trivially) with `b = true`. -/
theorem versionGate_claim_witness :
    dbEx.settings.Pairwise (fun s t => s.key ≠ t.key) ∧
    (∀ s ∈ dbEx.settings, s.docId < dbEx.nextId) ∧
    isEnabled (setEnabled true dbEx) = true ∧
    setEnabled true (setEnabled true dbEx) = setEnabled true dbEx := by
  have h := versionGate_claim true dbEx
  exact ⟨by simp [dbEx], by simp [dbEx], h.1, h.2.2.1 (by simp [dbEx])⟩

/-- The oldest timestamp of `getStats` is the `min?` of the `createdAt`s. -/
theorem getStats_oldest_eq (db : DB) :
    (getStats db).oldestVersion = (db.versions.map (fun s => s.createdAt)).min? := by
  cases h : db.versions.map (fun s => s.createdAt) with
  | nil => simp [getStats, h, List.min?]
  | cons t ts => simp [getStats, h, List.min?]

/-- The newest timestamp of `getStats` is the `max?` of the `createdAt`s. -/
theorem getStats_newest_eq (db : DB) :
    (getStats db).newestVersion = (db.versions.map (fun s => s.createdAt)).max? := by
  cases h : db.versions.map (fun s => s.createdAt) with
  | nil => simp [getStats, h, List.max?]
  | cons t ts => simp [getStats, h, List.max?]

/-- Characterization of `List.min?` on naturals as the least member. -/
theorem nat_min?_spec (xs : List Nat) (a : Nat) :
    xs.min? = some a ↔ a ∈ xs ∧ ∀ b ∈ xs, a ≤ b :=
  List.min?_eq_some_iff (fun a => le_refl a) (fun a b => min_choice a b)
    (fun _ _ _ => le_min_iff)

/-- Characterization of `List.max?` on naturals as the greatest member. -/
theorem nat_max?_spec (xs : List Nat) (a : Nat) :
    xs.max? = some a ↔ a ∈ xs ∧ ∀ b ∈ xs, b ≤ a :=
  List.max?_eq_some_iff (fun a => le_refl a) (fun a b => max_choice a b)
    (fun _ _ _ => max_le_iff)

/-- C7: `getStats` reports the gate state, the total number of stored
snapshots, and the minimum / maximum `createdAt` over all snapshots —
`none` for both bounds exactly when the store is empty. It is a pure
function of the state, so it modifies nothing. -/
theorem getStats_claim (db : DB) :
    (getStats db).enabled = isEnabled db ∧
    (getStats db).totalVersions = db.versions.length ∧
    (db.versions = [] →
      (getStats db).oldestVersion = none ∧ (getStats db).newestVersion = none) ∧
    (db.versions ≠ [] → ∃ t1 t2, (getStats db).oldestVersion = some t1 ∧
      (getStats db).newestVersion = some t2) ∧
    (∀ t, (getStats db).oldestVersion = some t →
      (∃ s ∈ db.versions, s.createdAt = t) ∧ ∀ s ∈ db.versions, t ≤ s.createdAt) ∧
    (∀ t, (getStats db).newestVersion = some t →
      (∃ s ∈ db.versions, s.createdAt = t) ∧ ∀ s ∈ db.versions, s.createdAt ≤ t) := by
  refine ⟨rfl, rfl, ?_, ?_, ?_, ?_⟩
  · intro h
    constructor <;> simp [getStats, h]
  · intro h
    cases ho : (getStats db).oldestVersion with
    | none =>
      rw [getStats_oldest_eq, List.min?_eq_none_iff] at ho
      exact absurd (by simpa using ho) h
    | some t1 =>
      cases hn : (getStats db).newestVersion with
      | none =>
        rw [getStats_newest_eq, List.max?_eq_none_iff] at hn
        exact absurd (by simpa using hn) h
      | some t2 => exact ⟨t1, t2, rfl, rfl⟩
  · intro t ht
    rw [getStats_oldest_eq] at ht
    obtain ⟨hmem, hle⟩ := (nat_min?_spec _ t).mp ht
    simp only [List.mem_map] at hmem
    obtain ⟨s, hs, hst⟩ := hmem
    exact ⟨⟨s, hs, hst⟩, fun s hs => hle _ (List.mem_map_of_mem _ hs)⟩
  · intro t ht
    rw [getStats_newest_eq] at ht
    obtain ⟨hmem, hle⟩ := (nat_max?_spec _ t).mp ht
    simp only [List.mem_map] at hmem
    obtain ⟨s, hs, hst⟩ := hmem
    exact ⟨⟨s, hs, hst⟩, fun s hs => hle _ (List.mem_map_of_mem _ hs)⟩

/-- C7 witness: on `dbEx` the oldest bound is the snapshot stamp 10 and
it bounds the other stored stamp 20 from below. -/
theorem getStats_claim_witness :
    (getStats dbEx).oldestVersion = some 10 ∧
    10 ≤ verPageEx.createdAt ∧
    (getStats dbEx).newestVersion = some 20 ∧
    verEx.createdAt ≤ 20 := by
  have h1 := ((getStats_claim dbEx).2.2.2.2.1 10 rfl).2 verPageEx (by simp [dbEx])
  have h2 := ((getStats_claim dbEx).2.2.2.2.2 20 rfl).2 verEx (by simp [dbEx])
  exact ⟨rfl, h1, rfl, h2⟩

/-- C4: `getVersionHistory` returns exactly the summaries of the
snapshots matching the content key — every returned summary comes from a
matching snapshot, every matching snapshot contributes its summary, and
the result's length is the matching count; an empty sequence (not an
error) when nothing matches; and whenever the stored `createdAt` stamps
are strictly increasing in insertion order (as successive `Date.now()`
stamps are), the result is strictly descending by `createdAt`, whatever
order the matching snapshots were interleaved with others. -/
theorem getVersionHistory_claim (db : DB) (ct : ContentType) (cid : String) :
    (∀ sm ∈ getVersionHistory db ct cid,
      ∃ s ∈ db.versions, s.contentType = ct ∧ s.contentId = cid ∧ sm = summarize s) ∧
    (∀ s ∈ db.versions, s.contentType = ct → s.contentId = cid →
      summarize s ∈ getVersionHistory db ct cid) ∧
    (getVersionHistory db ct cid).length = snapshotCount db ct cid ∧
    ((∀ s ∈ db.versions, ¬(s.contentType = ct ∧ s.contentId = cid)) →
      getVersionHistory db ct cid = []) ∧
    (db.versions.Pairwise (fun a b => a.createdAt < b.createdAt) →
      (getVersionHistory db ct cid).Pairwise (fun a b => b.createdAt < a.createdAt)) := by
  refine ⟨?_, ?_, ?_, ?_, ?_⟩
  · intro sm hsm
    simp only [getVersionHistory, List.mem_map, List.mem_reverse, List.mem_filter,
      Bool.and_eq_true, beq_iff_eq] at hsm
    obtain ⟨s, ⟨hs, hct, hcid⟩, hsum⟩ := hsm
    exact ⟨s, hs, hct, hcid, hsum.symm⟩
  · intro s hs hct hcid
    simp only [getVersionHistory, List.mem_map, List.mem_reverse, List.mem_filter,
      Bool.and_eq_true, beq_iff_eq]
    exact ⟨s, ⟨hs, hct, hcid⟩, rfl⟩
  · simp [getVersionHistory, snapshotCount]
  · intro h
    have : db.versions.filter (fun s =>
        s.contentType == ct && s.contentId == cid) = [] := by
      rw [List.filter_eq_nil_iff]
      intro s hs
      simp only [Bool.and_eq_true, beq_iff_eq, not_and]
      intro hct hcid
      exact h s hs ⟨hct, hcid⟩
    simp [getVersionHistory, this]
  · intro h
    have h1 : (db.versions.filter (fun s =>
        s.contentType == ct && s.contentId == cid)).Pairwise
        (fun a b => a.createdAt < b.createdAt) :=
      List.Pairwise.sublist (List.filter_sublist _) h
    have h2 : ((db.versions.filter (fun s =>
        s.contentType == ct && s.contentId == cid)).reverse).Pairwise
        (fun a b => b.createdAt < a.createdAt) :=
      List.pairwise_reverse.mpr h1
    exact List.Pairwise.map summarize (fun a b hab => hab) h2

/-- C4 witness: on `dbEx`, where the two stored stamps are strictly
increasing, the post history of `"p1"` is strictly descending by
`createdAt`, has the matching count as length, and the history of an
unknown id is empty. -/
theorem getVersionHistory_claim_witness :
    dbEx.versions.Pairwise (fun a b => a.createdAt < b.createdAt) ∧
    (getVersionHistory dbEx ContentType.post "p1").Pairwise
      (fun a b => b.createdAt < a.createdAt) ∧
    (getVersionHistory dbEx ContentType.post "p1").length =
      snapshotCount dbEx ContentType.post "p1" ∧
    getVersionHistory dbEx ContentType.post "nope" = [] := by
  have hpw : dbEx.versions.Pairwise (fun a b => a.createdAt < b.createdAt) := by
    simp [dbEx, verEx, verPageEx]
  refine ⟨hpw, (getVersionHistory_claim dbEx ContentType.post "p1").2.2.2.2 hpw,
    (getVersionHistory_claim dbEx ContentType.post "p1").2.2.1,
    (getVersionHistory_claim dbEx ContentType.post "nope").2.2.2.1 (by decide)⟩

/-- Rephrasing of `cleanupOldVersions` in terms of its named intermediate values. -/
theorem cleanup_eq (now : Nat) (db : DB) :
    cleanupOldVersions now db =
      ((oldBatch now db).length, { db with versions := keptVersions now db }) := rfl

/-- The expired batch is sorted ascending by `createdAt`. -/
theorem expiredSorted_pairwise (now : Nat) (db : DB) :
    (expiredSorted now db).Pairwise (fun a b => a.createdAt ≤ b.createdAt) := by
  have h := @List.sorted_mergeSort Snapshot
    (fun a b => a.createdAt ≤ b.createdAt)
    (by
      intro a b c hab hbc
      simp only [decide_eq_true_eq] at hab hbc ⊢
      omega)
    (by
      intro a b
      simp only [Bool.or_eq_true, decide_eq_true_eq]
      omega)
    (db.versions.filter (isExpired now))
  refine h.imp ?_
  intro a b hab
  simpa using hab

/-- Membership in the sorted expired list. -/
theorem mem_expiredSorted (now : Nat) (db : DB) (x : Snapshot) :
    x ∈ expiredSorted now db ↔ x ∈ db.versions ∧ isExpired now x = true := by
  rw [expiredSorted, List.mem_mergeSort, List.mem_filter]

/-- Every element of the deletion batch is a stored, expired snapshot. -/
theorem mem_of_mem_oldBatch (now : Nat) (db : DB) (x : Snapshot)
    (hx : x ∈ oldBatch now db) :
    x ∈ db.versions ∧ isExpired now x = true :=
  (mem_expiredSorted now db x).mp ((List.take_sublist 1000 _).mem hx)

/-- With unique document ids, the id test used for deletion identifies
exactly the members of the deletion batch. -/
theorem contains_iff_mem_oldBatch (now : Nat) (db : DB)
    (hnodup : (db.versions.map (fun s => s.docId)).Nodup)
    (s : Snapshot) (hs : s ∈ db.versions) :
    (((oldBatch now db).map (fun s => s.docId)).contains s.docId = true) ↔
      s ∈ oldBatch now db := by
  constructor
  · intro h
    obtain ⟨o, ho, hod⟩ := List.mem_map.mp (List.elem_iff.mp h)
    have hov := (mem_of_mem_oldBatch now db o ho).1
    have : o = s := List.inj_on_of_nodup_map hnodup hov hs hod
    rw [← this]
    exact ho
  · intro h
    exact List.elem_iff.mpr (List.mem_map_of_mem _ h)

/-- Membership in the surviving list. -/
theorem mem_keptVersions_iff (now : Nat) (db : DB)
    (hnodup : (db.versions.map (fun s => s.docId)).Nodup) (s : Snapshot) :
    s ∈ keptVersions now db ↔ s ∈ db.versions ∧ s ∉ oldBatch now db := by
  rw [keptVersions, List.mem_filter]
  constructor
  · rintro ⟨hs, hc⟩
    refine ⟨hs, ?_⟩
    intro hmem
    rw [Bool.not_eq_eq_eq_not, Bool.not_true] at hc
    rw [(contains_iff_mem_oldBatch now db hnodup s hs).mpr hmem] at hc
    cases hc
  · rintro ⟨hs, hno⟩
    refine ⟨hs, ?_⟩
    rw [Bool.not_eq_eq_eq_not, Bool.not_true]
    cases hc : ((oldBatch now db).map (fun s => s.docId)).contains s.docId with
    | false => rfl
    | true => exact absurd ((contains_iff_mem_oldBatch now db hnodup s hs).mp hc) hno

/-- With unique ids, the records whose id is in the deletion batch are a
permutation of the batch itself. -/
theorem deletedFilter_perm_oldBatch (now : Nat) (db : DB)
    (hnodup : (db.versions.map (fun s => s.docId)).Nodup) :
    (db.versions.filter (fun s =>
      ((oldBatch now db).map (fun s => s.docId)).contains s.docId)).Perm
      (oldBatch now db) := by
  have hvnd : db.versions.Nodup := List.Nodup.of_map _ hnodup
  have helig : (db.versions.filter (isExpired now)).Nodup :=
    List.Nodup.sublist (List.filter_sublist _) hvnd
  have hsortnd : (expiredSorted now db).Nodup :=
    ((List.mergeSort_perm _ _).nodup_iff).mpr helig
  have hbatchnd : (oldBatch now db).Nodup :=
    List.Nodup.sublist (List.take_sublist _ _) hsortnd
  have hdelnd : (db.versions.filter (fun s =>
      ((oldBatch now db).map (fun s => s.docId)).contains s.docId)).Nodup :=
    List.Nodup.sublist (List.filter_sublist _) hvnd
  apply List.perm_of_nodup_nodup_toFinset_eq hdelnd hbatchnd
  ext x
  simp only [List.mem_toFinset, List.mem_filter]
  constructor
  · rintro ⟨hx, hc⟩
    exact (contains_iff_mem_oldBatch now db hnodup x hx).mp hc
  · intro hx
    exact ⟨(mem_of_mem_oldBatch now db x hx).1,
      (contains_iff_mem_oldBatch now db hnodup x (mem_of_mem_oldBatch now db x hx).1).mpr hx⟩

/-- Deleted plus kept counts add up to the original store size. -/
theorem cleanup_count (now : Nat) (db : DB)
    (hnodup : (db.versions.map (fun s => s.docId)).Nodup) :
    (oldBatch now db).length + (keptVersions now db).length = db.versions.length := by
  have h : db.versions.length =
      (db.versions.filter (fun s =>
        ((oldBatch now db).map (fun s => s.docId)).contains s.docId)).length +
      (db.versions.filter (fun s =>
        !(((oldBatch now db).map (fun s => s.docId)).contains s.docId))).length :=
    List.length_eq_length_filter_add _
  rw [(deletedFilter_perm_oldBatch now db hnodup).length_eq] at h
  rw [keptVersions]
  omega

/-- Every deleted snapshot's `createdAt` is at most that of any expired
snapshot left behind the 1000-element cut. -/
theorem oldBatch_le_rest (now : Nat) (db : DB) :
    ∀ s ∈ oldBatch now db, ∀ w ∈ (expiredSorted now db).drop 1000,
      s.createdAt ≤ w.createdAt := by
  have hpw := expiredSorted_pairwise now db
  rw [← List.take_append_drop 1000 (expiredSorted now db)] at hpw
  exact (List.pairwise_append.mp hpw).2.2

/-- A surviving expired snapshot sits behind the 1000-element cut. -/
theorem mem_drop_of_kept (now : Nat) (db : DB)
    (hnodup : (db.versions.map (fun s => s.docId)).Nodup) (w : Snapshot)
    (hw : w ∈ keptVersions now db) (hexp : isExpired now w = true) :
    w ∈ (expiredSorted now db).drop 1000 := by
  obtain ⟨hwv, hwno⟩ := (mem_keptVersions_iff now db hnodup w).mp hw
  have hws : w ∈ expiredSorted now db := (mem_expiredSorted now db w).mpr ⟨hwv, hexp⟩
  rw [← List.take_append_drop 1000 (expiredSorted now db)] at hws
  rcases List.mem_append.mp hws with h | h
  · exact absurd h hwno
  · exact h

/-- The surviving expired snapshots are a permutation of the part of the
sorted expired list behind the cut. -/
theorem keptExpired_perm_drop (now : Nat) (db : DB)
    (hnodup : (db.versions.map (fun s => s.docId)).Nodup) :
    ((keptVersions now db).filter (isExpired now)).Perm
      ((expiredSorted now db).drop 1000) := by
  have hvnd : db.versions.Nodup := List.Nodup.of_map _ hnodup
  have helig : (db.versions.filter (isExpired now)).Nodup :=
    List.Nodup.sublist (List.filter_sublist _) hvnd
  have hsortnd : (expiredSorted now db).Nodup :=
    ((List.mergeSort_perm _ _).nodup_iff).mpr helig
  have hknd : ((keptVersions now db).filter (isExpired now)).Nodup :=
    List.Nodup.sublist ((List.filter_sublist _).trans (List.filter_sublist _)) hvnd
  have hdnd : ((expiredSorted now db).drop 1000).Nodup :=
    List.Nodup.sublist (List.drop_sublist _ _) hsortnd
  have hnd2 : ((expiredSorted now db).take 1000 ++ (expiredSorted now db).drop 1000).Nodup := by
    rw [List.take_append_drop]
    exact hsortnd
  have hdisj := (List.nodup_append.mp hnd2).2.2
  apply List.perm_of_nodup_nodup_toFinset_eq hknd hdnd
  ext x
  simp only [List.mem_toFinset, List.mem_filter]
  constructor
  · rintro ⟨hxk, hxe⟩
    exact mem_drop_of_kept now db hnodup x hxk hxe
  · intro hx
    have hxs : x ∈ expiredSorted now db := (List.drop_sublist _ _).mem hx
    obtain ⟨hxv, hxe⟩ := (mem_expiredSorted now db x).mp hxs
    refine ⟨(mem_keptVersions_iff now db hnodup x).mpr ⟨hxv, ?_⟩, hxe⟩
    intro hxb
    exact hdisj hxb hx

/-- After one sweep the expired backlog shrinks by the batch size. -/
theorem cleanup_backlog (now : Nat) (db : DB)
    (hnodup : (db.versions.map (fun s => s.docId)).Nodup) :
    ((keptVersions now db).filter (isExpired now)).length =
      (db.versions.filter (isExpired now)).length - (oldBatch now db).length := by
  rw [(keptExpired_perm_drop now db hnodup).length_eq, List.length_drop]
  have hsl : (expiredSorted now db).length =
      (db.versions.filter (isExpired now)).length :=
    (List.mergeSort_perm _ _).length_eq
  have hob : (oldBatch now db).length = min 1000 (expiredSorted now db).length :=
    List.length_take _ _
  omega

/-- C6: one sweep deletes only snapshots with
`createdAt < now - RETENTION_MS` (never one at or after the boundary),
at most 1000 of them — exactly `min 1000 (number eligible)`, and only
the oldest eligible ones: every deleted snapshot's `createdAt` is at
most that of any eligible survivor. The returned number is exactly the
number deleted, the survivors are a subsequence of the original store,
and settings, posts, pages and the id allocator are untouched. The
eligible backlog shrinks by exactly the batch size, so repeated calls
drive it to zero. Ids are assumed unique across stored snapshots
(deletion addresses documents by id). -/
theorem cleanupOldVersions_claim (now : Nat) (db : DB)
    (hnodup : (db.versions.map (fun s => s.docId)).Nodup) :
    (cleanupOldVersions now db).2.settings = db.settings ∧
    (cleanupOldVersions now db).2.posts = db.posts ∧
    (cleanupOldVersions now db).2.pages = db.pages ∧
    (cleanupOldVersions now db).2.nextId = db.nextId ∧
    (cleanupOldVersions now db).2.versions.Sublist db.versions ∧
    (∀ s ∈ db.versions, isExpired now s = false →
      s ∈ (cleanupOldVersions now db).2.versions) ∧
    (∀ s ∈ db.versions, s ∉ (cleanupOldVersions now db).2.versions →
      isExpired now s = true) ∧
    (cleanupOldVersions now db).1 ≤ 1000 ∧
    (cleanupOldVersions now db).1 =
      min 1000 (db.versions.filter (isExpired now)).length ∧
    (cleanupOldVersions now db).1 + (cleanupOldVersions now db).2.versions.length =
      db.versions.length ∧
    (∀ s ∈ db.versions, s ∉ (cleanupOldVersions now db).2.versions →
      ∀ w ∈ (cleanupOldVersions now db).2.versions, isExpired now w = true →
        s.createdAt ≤ w.createdAt) ∧
    ((cleanupOldVersions now db).2.versions.filter (isExpired now)).length =
      (db.versions.filter (isExpired now)).length - (cleanupOldVersions now db).1 := by
  rw [cleanup_eq]
  refine ⟨rfl, rfl, rfl, rfl, ?_, ?_, ?_, ?_, ?_, ?_, ?_, ?_⟩
  · exact List.filter_sublist _
  · intro s hs hexp
    refine (mem_keptVersions_iff now db hnodup s).mpr ⟨hs, ?_⟩
    intro hb
    have := (mem_of_mem_oldBatch now db s hb).2
    rw [hexp] at this
    cases this
  · intro s hs hnot
    cases hexp : isExpired now s with
    | true => rfl
    | false =>
      refine absurd ?_ hnot
      refine (mem_keptVersions_iff now db hnodup s).mpr ⟨hs, ?_⟩
      intro hb
      have := (mem_of_mem_oldBatch now db s hb).2
      rw [hexp] at this
      cases this
  · have h := List.length_take 1000 (expiredSorted now db)
    rw [oldBatch]
    omega
  · have hsl : (expiredSorted now db).length =
        (db.versions.filter (isExpired now)).length :=
      (List.mergeSort_perm _ _).length_eq
    have h := List.length_take 1000 (expiredSorted now db)
    rw [oldBatch]
    omega
  · exact cleanup_count now db hnodup
  · intro s hs hnot w hw hexpw
    have hsb : s ∈ oldBatch now db := by
      by_contra hno
      exact hnot ((mem_keptVersions_iff now db hnodup s).mpr ⟨hs, hno⟩)
    exact oldBatch_le_rest now db s hsb w (mem_drop_of_kept now db hnodup w hw hexpw)
  · exact cleanup_backlog now db hnodup
  
/-- C6 witness: on `dbEx` at `now = RETENTION_MS + 15` the snapshot
stamped 10 is expired and deleted, the one stamped 20 survives, and the
call reports one deletion. -/
theorem cleanupOldVersions_claim_witness :
    (dbEx.versions.map (fun s => s.docId)).Nodup ∧
    isExpired (RETENTION_MS + 15) verEx = true ∧
    isExpired (RETENTION_MS + 15) verPageEx = false ∧
    (cleanupOldVersions (RETENTION_MS + 15) dbEx).1 = 1 ∧
    (cleanupOldVersions (RETENTION_MS + 15) dbEx).2.versions = [verPageEx] := by
  have h := cleanupOldVersions_claim (RETENTION_MS + 15) dbEx (by decide)
  have hfil : dbEx.versions.filter (isExpired (RETENTION_MS + 15)) = [verEx] := by decide
  have hsorted : expiredSorted (RETENTION_MS + 15) dbEx = [verEx] := by
    rw [expiredSorted, hfil, List.mergeSort_singleton]
  have hbatch : oldBatch (RETENTION_MS + 15) dbEx = [verEx] := by
    rw [oldBatch, hsorted]
    rfl
  have hkept : keptVersions (RETENTION_MS + 15) dbEx = [verPageEx] := by
    rw [keptVersions, hbatch]
    decide
  refine ⟨by decide, by decide, by decide, ?_, ?_⟩
  · have h9 := h.2.2.2.2.2.2.2.2.1
    rw [h9, hfil]
    decide
  · rw [cleanup_eq]
    exact hkept
